import Mathlib

/-!
Verification of the response-acquisition pipeline of the goff Yahoo fantasy
sports client (package `goff`, file `goff.go`).

The Go source is shallowly embedded as follows:

* Go strings are Lean `String`; `strings.Contains` is `goContains`.
* `error` values are `GoffError`: `errors.New(s)` becomes `GoffError.message s`
  and the package-level distinguished value `ErrAccessDenied` becomes the
  separate constructor `GoffError.accessDenied`, so that Go's error identity
  (pointer identity of `errors.New` results) is modelled by constructor
  identity.
* Go `int`/`int64` are `Int`, `uint64` is `Nat`, and `float64` fields are
  modelled as exact rationals `ℚ` (no arithmetic is performed on them by the
  embedded code; they only receive parsed decimal literals).
* Go runtime panics (index out of range on `Teams[0]`/`Teams[1]`, integer
  division by zero) are modelled by returning `none` from an `Option`-valued
  function.
* The stateful HTTP client is modelled by threading the request counter
  explicitly; the transport (`HTTPClient.Get`) is modelled as a function from
  the call number (1, 2, 3, ...) to the pair (response, error) it returns,
  mirroring the repository's own `mockHTTPClient` whose behaviour depends on
  how many times it has been called.
-/

/-- Boolean test that the first character list is a prefix of the second. -/
def charListStartsWith : List Char → List Char → Bool
  | [], _ => true
  | _ :: _, [] => false
  | a :: as, b :: bs => a = b && charListStartsWith as bs

/-- Boolean test that `pat` occurs contiguously inside `s`. -/
def charListHasSegment (pat s : List Char) : Bool :=
  match s with
  | [] => charListStartsWith pat []
  | _ :: rest => charListStartsWith pat s || charListHasSegment pat rest

/-- Embedding of Go `strings.Contains(s, substr)`. -/
def goContains (s substr : String) : Bool :=
  charListHasSegment substr.toList s.toList

/-- Decimal digit test, as used by Go's `strconv` parsing. -/
def isDigitChar (c : Char) : Bool := '0' ≤ c && c ≤ '9'

/-- Numeric value of a list of decimal digit characters (most significant
first). -/
def digitsVal (cs : List Char) : Nat :=
  cs.foldl (fun acc c => acc * 10 + (c.toNat - 48)) 0

/-- Embedding of Go `strconv.ParseInt(s, 10, 64)`: an optional sign followed
by a nonempty run of decimal digits, with the result required to fit in a
signed 64-bit integer; any other input is a parse error (`none`). -/
def goParseInt (s : String) : Option Int :=
  let cs := s.toList
  let signAndDigits : Bool × List Char :=
    match cs with
    | '+' :: rest => (false, rest)
    | '-' :: rest => (true, rest)
    | _ => (false, cs)
  let neg := signAndDigits.1
  let ds := signAndDigits.2
  if ds.isEmpty || !ds.all isDigitChar then none
  else
    let v : Int := Int.ofNat (digitsVal ds)
    let v := if neg then -v else v
    if v < -(2 ^ 63) || v > 2 ^ 63 - 1 then none else some v

/-- The discrete part of parsing a decimal literal `[+|-] digits [. digits]`
(at least one digit in total): returns (negative?, integer digits value,
fraction digits value, number of fraction digits), or `none` on any other
input. -/
def parseDecimalParts (s : String) : Option (Bool × Nat × Nat × Nat) :=
  let cs := s.toList
  let signAndRest : Bool × List Char :=
    match cs with
    | '+' :: rest => (false, rest)
    | '-' :: rest => (true, rest)
    | _ => (false, cs)
  let neg := signAndRest.1
  let body := signAndRest.2
  let intDs := body.takeWhile isDigitChar
  let afterInt := body.dropWhile isDigitChar
  match afterInt with
  | [] =>
    if intDs.isEmpty then none
    else some (neg, digitsVal intDs, 0, 0)
  | '.' :: afterDot =>
    let fracDs := afterDot.takeWhile isDigitChar
    let afterFrac := afterDot.dropWhile isDigitChar
    if afterFrac.isEmpty && !(intDs.isEmpty && fracDs.isEmpty) then
      some (neg, digitsVal intDs, digitsVal fracDs, fracDs.length)
    else none
  | _ => none

/-- The rational value of parsed decimal parts. -/
def ratOfParts (neg : Bool) (ip fp fl : Nat) : ℚ :=
  (if neg then -1 else 1) * ((ip : ℚ) + (fp : ℚ) / ((10 : ℚ) ^ fl))

/-- Embedding of Go `strconv.ParseFloat(s, 64)` for the plain decimal forms
(`[+|-] digits [. digits]`, at least one digit in total) that the fantasy API
emits; Go additionally accepts exponent/hex/inf/nan spellings, which never
occur in this code's inputs and are not modelled. The resulting `float64` is
modelled as the exact decimal rational (IEEE rounding is not modelled). The
empty string, and any other malformed input, is a parse error (`none`). -/
def goParseFloat (s : String) : Option ℚ :=
  (parseDecimalParts s).map fun parts => ratOfParts parts.1 parts.2.1 parts.2.2.1 parts.2.2.2

/-!
Errors, HTTP transport, and the counting/retrying client
(`countingHTTPApiClient.Get` in `goff.go`).
-/

/-- Sentinel substring of the known transient upstream authentication glitch
(`"consumer_key_unknown"` in `countingHTTPApiClient.Get`). -/
def consumerKeyUnknownSentinel : String := "consumer_key_unknown"

/-- Sentinel substring of the permission failure
(`"You are not allowed to view this page"` in `countingHTTPApiClient.Get`). -/
def accessDeniedSentinel : String := "You are not allowed to view this page"

/-- Go `error` values as used by this package: `message s` is any error
created by `errors.New`/`fmt.Errorf` with text `s`, and `accessDenied` is the
package-level distinguished value `ErrAccessDenied`. Two distinct
constructors model Go's identity comparison of error values. -/
inductive GoffError where
  | message (s : String)
  | accessDenied
deriving DecidableEq

/-- The `Error()` text of an error value. `accessDenied` carries the text
given to `errors.New` in the definition of `ErrAccessDenied`. -/
def GoffError.text : GoffError → String
  | .message s => s
  | .accessDenied => "user does not have permission to access the requested resource"

/-- An `*http.Response`; the pipeline only passes it through, so only the
body is modelled. -/
structure HTTPResponse where
  body : String
deriving DecidableEq

/-- The result of one `HTTPClient.Get` call: the `(response, error)` pair
(Go returns both; the mock transport returns a response even on error). -/
abbrev HTTPResult := Option HTTPResponse × Option GoffError

/-- A transport (`HTTPClient`): the result it produces on its n-th call
(n = 1, 2, 3, ...). -/
abbrev Transport := Nat → HTTPResult

/-- The retry loop of `countingHTTPApiClient.Get`:
`for attempts := 0; attempts < 4 && err != nil && strings.Contains(err.Error(), "consumer_key_unknown"); attempts++`
with the body re-incrementing the counter and re-issuing the request.
`fuel` is the number of loop iterations still allowed (initially 4), `rc` the
current request counter, `res` the result of the most recent call. -/
def retryLoop (tr : Transport) : Nat → Nat → HTTPResult → HTTPResult × Nat
  | 0, rc, res => (res, rc)
  | fuel + 1, rc, res =>
    match res.2 with
    | some e =>
      if goContains e.text consumerKeyUnknownSentinel then
        retryLoop tr fuel (rc + 1) (tr (rc + 1))
      else (res, rc)
    | none => (res, rc)

/-- The result and counter of `countingHTTPApiClient.Get` before the final
access-denied normalization: the initial call (counter incremented first)
followed by the retry loop with at most 4 retries. -/
def rawGetResult (tr : Transport) (rc0 : Nat) : HTTPResult × Nat :=
  retryLoop tr 4 (rc0 + 1) (tr (rc0 + 1))

/-- Embedding of `countingHTTPApiClient.Get`: issue the request with retries,
then, if the final error's text contains the access-denied sentinel, replace
the error by the distinguished `ErrAccessDenied` value. Returns the
`(response, error)` pair and the new request counter. -/
def countingGet (tr : Transport) (rc0 : Nat) : HTTPResult × Nat :=
  let res := (rawGetResult tr rc0).1
  let rc := (rawGetResult tr rc0).2
  match res.2 with
  | some e =>
    if goContains e.text accessDeniedSentinel then
      ((res.1, some GoffError.accessDenied), rc)
    else (res, rc)
  | none => (res, rc)

/-!
API data structure definitions (the structs of `goff.go`). Field names and
order follow the Go source. `xml:"..."` struct tags are decoder metadata and
carry no behaviour; `xml.Name` is the decoder's record of the root element
name.
-/

/-- The `encoding/xml` element name stored in `FantasyContent.XMLName`. -/
structure XmlElementName where
  Space : String
  Local : String

/-- Points represents scoring statistics for a time period specified by
CoverageType. `Total float64` has no xml tag (it is derived by repair);
`TotalStr string` decodes the `total` element text. -/
structure Points where
  CoverageType : String
  Season : String
  Week : Int
  Total : ℚ
  TotalStr : String

/-- Record is the number of wins, losses, and ties for a given team. -/
structure Record where
  Wins : Int
  Losses : Int
  Ties : Int

/-- TeamStandings describes how a single Team ranks in their league.
`Rank int` is derived by repair from the raw `RankStr string`. -/
structure TeamStandings where
  Rank : Int
  RankStr : String
  Record : Record
  PointsFor : ℚ
  PointsAgainst : ℚ

/-- TeamLogo is a image for a given team. -/
structure TeamLogo where
  Size : String
  URL : String

/-- Name is a name of a player. -/
structure PlayerName where
  Full : String
  First : String
  Last : String

/-- SelectedPosition is the position chosen for a Player for a given week. -/
structure SelectedPosition where
  CoverageType : String
  Week : Int
  Position : String

/-- A Player is a single player for the given sport. -/
structure Player where
  PlayerKey : String
  PlayerID : Nat
  Name : PlayerName
  DisplayPosition : String
  ElligiblePositions : List String
  SelectedPosition : SelectedPosition
  PlayerPoints : Points

/-- A Roster is the set of players belonging to one team for a given week. -/
structure Roster where
  CoverageType : String
  Players : List Player
  Week : Int

/-- A Manager is a user in change of a given team. -/
structure Manager where
  ManagerID : Nat
  Nickname : String
  GUID : String
  IsCurrentLogin : Bool

mutual
/-- A Team is a participant in exactly one league. A team holds a list of
matchups and each matchup holds a list of teams, so `Team` and `Matchup` are
mutually recursive. -/
inductive Team : Type where
  | mk
    (TeamKey : String)
    (TeamID : Nat)
    (Name : String)
    (URL : String)
    (TeamLogos : List TeamLogo)
    (IsOwnedByCurrentLogin : Bool)
    (WavierPriority : Int)
    (NumberOfMoves : Int)
    (NumberOfTrades : Int)
    (Managers : List Manager)
    (Matchups : List Matchup)
    (Roster : Roster)
    (TeamPoints : Points)
    (TeamProjectedPoints : Points)
    (TeamStandings : TeamStandings)
    (Players : List Player) : Team
/-- A Matchup is a collection of teams paired against one another for a
given week. -/
inductive Matchup : Type where
  | mk (Week : Int) (Teams : List Team) : Matchup
end

def Team.TeamKey : Team → String
  | .mk v _ _ _ _ _ _ _ _ _ _ _ _ _ _ _ => v

def Team.TeamID : Team → Nat
  | .mk _ v _ _ _ _ _ _ _ _ _ _ _ _ _ _ => v

def Team.Name : Team → String
  | .mk _ _ v _ _ _ _ _ _ _ _ _ _ _ _ _ => v

def Team.URL : Team → String
  | .mk _ _ _ v _ _ _ _ _ _ _ _ _ _ _ _ => v

def Team.TeamLogos : Team → List TeamLogo
  | .mk _ _ _ _ v _ _ _ _ _ _ _ _ _ _ _ => v

def Team.IsOwnedByCurrentLogin : Team → Bool
  | .mk _ _ _ _ _ v _ _ _ _ _ _ _ _ _ _ => v

def Team.WavierPriority : Team → Int
  | .mk _ _ _ _ _ _ v _ _ _ _ _ _ _ _ _ => v

def Team.NumberOfMoves : Team → Int
  | .mk _ _ _ _ _ _ _ v _ _ _ _ _ _ _ _ => v

def Team.NumberOfTrades : Team → Int
  | .mk _ _ _ _ _ _ _ _ v _ _ _ _ _ _ _ => v

def Team.Managers : Team → List Manager
  | .mk _ _ _ _ _ _ _ _ _ v _ _ _ _ _ _ => v

def Team.Matchups : Team → List Matchup
  | .mk _ _ _ _ _ _ _ _ _ _ v _ _ _ _ _ => v

def Team.Roster : Team → Roster
  | .mk _ _ _ _ _ _ _ _ _ _ _ v _ _ _ _ => v

def Team.TeamPoints : Team → Points
  | .mk _ _ _ _ _ _ _ _ _ _ _ _ v _ _ _ => v

def Team.TeamProjectedPoints : Team → Points
  | .mk _ _ _ _ _ _ _ _ _ _ _ _ _ v _ _ => v

def Team.TeamStandings : Team → TeamStandings
  | .mk _ _ _ _ _ _ _ _ _ _ _ _ _ _ v _ => v

def Team.Players : Team → List Player
  | .mk _ _ _ _ _ _ _ _ _ _ _ _ _ _ _ v => v

def Matchup.Week : Matchup → Int
  | .mk v _ => v

def Matchup.Teams : Matchup → List Team
  | .mk _ v => v

/-- Scoreboard represents the matchups that occurred for one or more
weeks. -/
structure Scoreboard where
  Weeks : String
  Matchups : List Matchup

/-- Settings describes how a league is configured. -/
structure Settings where
  DraftType : String
  ScoringType : String
  UsesPlayoff : Bool
  PlayoffStartWeek : Int

/-- A League is a uniquely identifiable group of players and teams. -/
structure League where
  LeagueKey : String
  LeagueID : Nat
  Name : String
  URL : String
  Players : List Player
  Teams : List Team
  DraftStatus : String
  CurrentWeek : Int
  StartWeek : Int
  EndWeek : Int
  IsFinished : Bool
  Standings : List Team
  Scoreboard : Scoreboard
  Settings : Settings

/-- Game represents a single year in the Yahoo fantasy football ecosystem.
It consists of zero or more leagues. -/
structure Game where
  Leagues : List League

/-- User contains the games a user is participating in. -/
structure User where
  Games : List Game

/-- FantasyContent is the root level response containing the data from a
request to the fantasy sports API. -/
structure FantasyContent where
  XMLName : XmlElementName
  League : League
  Team : Team
  Users : List User

/-!
Document repair (`fixContent`, `fixTeam`, `fixRank`, `fixPoints` in
`goff.go`). The Go code mutates the document in place through pointers; the
embedding is the corresponding pure function. Go's unconditional indexing
`Teams[0]` / `Teams[1]` inside matchup loops panics when a matchup has fewer
than two teams; a panic is modelled as the result `none` (a Go panic aborts
the whole call, so the order in which the traversal would have reached the
panic does not affect the modelled outcome).
-/

/-- `fixPoints`: if the raw total text is nonempty and parses as a float, set
the derived total to the parsed value; otherwise leave the struct as is. -/
def fixPoints (p : Points) : Points :=
  if p.TotalStr ≠ "" then
    match goParseFloat p.TotalStr with
    | some total => { p with Total := total }
    | none => p
  else p

/-- `fixRank`: if the raw rank text is nonempty and parses as a base-10
64-bit integer, set the derived rank to the parsed value; otherwise leave the
struct as is. -/
def fixRank (t : TeamStandings) : TeamStandings :=
  if t.RankStr ≠ "" then
    match goParseInt t.RankStr with
    | some rank => { t with Rank := rank }
    | none => t
  else t

/-- The body of the player-repair loops (`fixPoints(&players[i].PlayerPoints)`
applied to one player). -/
def fixPlayer (p : Player) : Player :=
  { p with PlayerPoints := fixPoints p.PlayerPoints }

mutual
/-- `fixTeam`: repair the team's points, projected points, roster players,
standalone players, recursively the first two teams of each of its matchups,
and its standings rank. -/
def fixTeam : Team → Option Team
  | .mk tk tid nm url logos owned wp nmoves ntrades mgrs ms roster tp tpp ts ps =>
    match fixMatchupList ms with
    | some ms' =>
      some (.mk tk tid nm url logos owned wp nmoves ntrades mgrs ms'
        { roster with Players := roster.Players.map fixPlayer }
        (fixPoints tp) (fixPoints tpp) (fixRank ts) (ps.map fixPlayer))
    | none => none

/-- The `for i := range matchups { fixTeam(&matchups[i].Teams[0]); fixTeam(&matchups[i].Teams[1]) }`
loop, over a whole matchup list. -/
def fixMatchupList : List Matchup → Option (List Matchup)
  | [] => some []
  | m :: rest =>
    match fixMatchup m, fixMatchupList rest with
    | some m', some rest' => some (m' :: rest')
    | _, _ => none

/-- One iteration of the matchup loops: `fixTeam(&m.Teams[0])` and
`fixTeam(&m.Teams[1])`; teams at index 2 and beyond are not touched, and a
matchup with fewer than two teams makes the Go code panic (`none`). -/
def fixMatchup : Matchup → Option Matchup
  | .mk wk (t0 :: t1 :: rest) =>
    match fixTeam t0, fixTeam t1 with
    | some t0', some t1' => some (.mk wk (t0' :: t1' :: rest))
    | _, _ => none
  | .mk _ _ => none
end

/-- The `for i := range teams { fixTeam(&teams[i]) }` loops of `fixContent`
(league teams and league standings). -/
def fixTeamList : List Team → Option (List Team)
  | [] => some []
  | t :: rest =>
    match fixTeam t, fixTeamList rest with
    | some t', some rest' => some (t' :: rest')
    | _, _ => none

/-- `fixContent`: repair the top-level team, every league team, every
standings team, every league player's points, and the first two teams of
every league scoreboard matchup. -/
def fixContent (c : FantasyContent) : Option FantasyContent :=
  match fixTeam c.Team, fixTeamList c.League.Teams, fixTeamList c.League.Standings,
      fixMatchupList c.League.Scoreboard.Matchups with
  | some team', some teams', some standings', some sb' =>
    some { c with
      Team := team',
      League := { c.League with
        Teams := teams',
        Standings := standings',
        Players := c.League.Players.map fixPlayer,
        Scoreboard := { c.League.Scoreboard with Matchups := sb' } } }
  | _, _, _, _ => none

/-!
Cache (`LRUCache`, `LRUCacheValue`, `NewLRUCache`, `getKey`, and the
`cachedContentProvider` in `goff.go`). The backing `lru.LRUCache` is an
external library; it is modelled as an association list from keys to stored
interface values, updates shadowing older entries (its capacity-based
eviction is not exercised by any verified claim and is not modelled). A
stored interface value is either the package's `*LRUCacheValue` wrapper or a
value of some other type (as in the repository's type-mismatch test, which
stores a `mockedValue`); the wrapper's `content *FantasyContent` pointer may
be nil, hence `Option`.
-/

/-- A value held by the backing bounded store: either this package's
`*LRUCacheValue` wrapper or a foreign value of another type. -/
inductive StoredValue where
  | lruCacheValue (content : Option FantasyContent)
  | foreignValue

/-- The state of the backing `lru.LRUCache` store. -/
abbrev LRUStore := List (String × StoredValue)

/-- Lookup in the backing store (`lru.LRUCache.Get`). -/
def storeLookup (key : String) : LRUStore → Option StoredValue
  | [] => none
  | (k, v) :: rest => if k = key then some v else storeLookup key rest

/-- Insert/replace in the backing store (`lru.LRUCache.Set`). -/
def storeSet (key : String) (v : StoredValue) (s : LRUStore) : LRUStore :=
  (key, v) :: s

/-- LRUCache implements Cache utilizing a LRU cache and unique keys to cache
content for up to a maximum duration. `Duration` is a `time.Duration`, i.e.
a count of nanoseconds; the backing store (the Go struct's `Cache` field) is
threaded explicitly through the operations below. -/
structure LRUCache where
  ClientID : String
  Duration : Int
  DurationSeconds : Int

/-- `NewLRUCache`: `DurationSeconds` is `int64(duration.Seconds())`, i.e. the
duration in nanoseconds divided by 10^9 and truncated toward zero (the
`float64` intermediate of `Duration.Seconds` is modelled as this exact
truncated division, which agrees with Go at the magnitudes the claims use). -/
def NewLRUCache (clientID : String) (duration : Int) : LRUCache :=
  { ClientID := clientID
    Duration := duration
    DurationSeconds := Int.tdiv duration 1000000000 }

/-- `LRUCache.getKey`: `fmt.Sprintf("%s:%s:%d", l.ClientID, originalKey, time.Unix() / l.DurationSeconds)`.
Go's `/` on `int64` truncates toward zero (`Int.tdiv`) and panics when
`l.DurationSeconds` is zero (`none`). -/
def LRUCache.getKey (l : LRUCache) (originalKey : String) (t : Int) : Option String :=
  if l.DurationSeconds = 0 then none
  else some (l.ClientID ++ ":" ++ originalKey ++ ":" ++
    toString (Int.tdiv t l.DurationSeconds))

/-- `LRUCache.Get`: look the derived key up in the backing store; a missing
entry is a miss, and a stored value that fails the `value.(*LRUCacheValue)`
type assertion is likewise returned as `(nil, false)`. -/
def LRUCache.get (l : LRUCache) (url : String) (t : Int) (s : LRUStore) :
    Option (Option FantasyContent × Bool) :=
  match l.getKey url t with
  | none => none
  | some key =>
    match storeLookup key s with
    | none => some (none, false)
    | some (StoredValue.lruCacheValue c) => some (c, true)
    | some StoredValue.foreignValue => some (none, false)

/-- `LRUCache.Set`: store the content, wrapped in an `LRUCacheValue`, under
the derived key. -/
def LRUCache.set (l : LRUCache) (url : String) (t : Int)
    (content : Option FantasyContent) (s : LRUStore) : Option LRUStore :=
  match l.getKey url t with
  | none => none
  | some key => some (storeSet key (StoredValue.lruCacheValue content) s)

/-- A delegate `ContentProvider.Get`: the `(content, error)` pair it returns
for a URL. -/
abbrev Delegate := String → Option FantasyContent × Option GoffError

/-- `cachedContentProvider.Get`: take the current time once at the start,
consult the cache; on a miss call the delegate and, only when the delegate
returned no error, insert its content under the key computed from that start
time; return the delegate's `(content, err)` pair as is. On a hit return the
cached content with a nil error. -/
def cachedContentProviderGet (l : LRUCache) (delegate : Delegate) (url : String)
    (currentTime : Int) (s : LRUStore) :
    Option ((Option FantasyContent × Option GoffError) × LRUStore) :=
  match LRUCache.get l url currentTime s with
  | none => none
  | some (cached, ok) =>
    if ok then some ((cached, none), s)
    else
      let content := (delegate url).1
      let err := (delegate url).2
      match err with
      | none =>
        match LRUCache.set l url currentTime content s with
        | none => none
        | some s' => some ((content, none), s')
      | some e => some ((content, some e), s)

/-- Modelled from the spec: the decoding of a team's points `<total>` leaf by
the standard library's `encoding/xml` (which is outside this repository).
Per the spec, "numeric-looking leaf elements may legitimately be empty
(self-closing or whitespace-only) and must not cause a parse failure — they
must decode as empty text, to be repaired afterward": decoding a `total`
element whose text is `text` always succeeds and yields a `Points` whose
`TotalStr` is that text and whose untagged derived `Total` still holds the Go
zero value 0. -/
def decodePointsTotal (text : String) : Points :=
  { CoverageType := "", Season := "", Week := 0, Total := 0, TotalStr := text }

/-!
Raw-text projection of a document: the list of every raw `TotalStr` and
`RankStr` string reachable by the repair traversal, used to state that repair
never changes the raw text fields.
-/

/-- The raw text of one player: its points' `TotalStr`. -/
def rawPlayer (p : Player) : String := p.PlayerPoints.TotalStr

mutual
/-- All raw `TotalStr`/`RankStr` strings in a team, including every team of
every nested matchup (at every index, touched by repair or not). -/
def rawTeam : Team → List String
  | .mk _ _ _ _ _ _ _ _ _ _ ms roster tp tpp ts ps =>
    tp.TotalStr :: tpp.TotalStr :: ts.RankStr ::
      (roster.Players.map rawPlayer ++ ps.map rawPlayer ++ rawMatchupList ms)

def rawMatchupList : List Matchup → List String
  | [] => []
  | m :: rest => rawMatchup m ++ rawMatchupList rest

def rawMatchup : Matchup → List String
  | .mk _ teams => rawTeamList teams

def rawTeamList : List Team → List String
  | [] => []
  | t :: rest => rawTeam t ++ rawTeamList rest
end

/-- All raw `TotalStr`/`RankStr` strings reachable by the repair traversal of
a document. -/
def rawContent (c : FantasyContent) : List String :=
  rawTeam c.Team ++ rawTeamList c.League.Teams ++ rawTeamList c.League.Standings ++
    c.League.Players.map rawPlayer ++ rawMatchupList c.League.Scoreboard.Matchups

/-!
Well-formedness: every matchup reachable by the repair traversal has at
least two teams. This is the condition under which the Go repair code's
unconditional `Teams[0]` / `Teams[1]` indexing cannot panic.
-/

mutual
/-- Every matchup nested anywhere inside this team has at least two teams
(and so do the matchups of its first two matchup teams, recursively). -/
def teamWF : Team → Bool
  | .mk _ _ _ _ _ _ _ _ _ _ ms _ _ _ _ _ => matchupListWF ms

def matchupListWF : List Matchup → Bool
  | [] => true
  | m :: rest => matchupWF m && matchupListWF rest

def matchupWF : Matchup → Bool
  | .mk _ (t0 :: t1 :: _) => teamWF t0 && teamWF t1
  | .mk _ _ => false
end

/-- The `for i := range teams` well-formedness for the team lists repaired by
`fixContent`. -/
def teamListWF : List Team → Bool
  | [] => true
  | t :: rest => teamWF t && teamListWF rest

/-- Every matchup reachable by the repair traversal of the document has at
least two teams. -/
def contentWF (c : FantasyContent) : Bool :=
  teamWF c.Team && teamListWF c.League.Teams && teamListWF c.League.Standings &&
    matchupListWF c.League.Scoreboard.Matchups

/-!
Lemmas about the repair functions.
-/

theorem fixPoints_TotalStr (p : Points) : (fixPoints p).TotalStr = p.TotalStr := by
  unfold fixPoints
  split
  · split <;> rfl
  · rfl

theorem fixRank_RankStr (t : TeamStandings) : (fixRank t).RankStr = t.RankStr := by
  unfold fixRank
  split
  · split <;> rfl
  · rfl

theorem fixPoints_idem (p : Points) : fixPoints (fixPoints p) = fixPoints p := by
  unfold fixPoints
  split
  · rename_i h
    cases hp : goParseFloat p.TotalStr with
    | none => simp [hp, h]
    | some v => simp [hp, h]
  · simp_all

theorem fixRank_idem (t : TeamStandings) : fixRank (fixRank t) = fixRank t := by
  unfold fixRank
  split
  · rename_i h
    cases hr : goParseInt t.RankStr with
    | none => simp [hr, h]
    | some v => simp [hr, h]
  · simp_all

theorem fixPlayer_idem (p : Player) : fixPlayer (fixPlayer p) = fixPlayer p := by
  simp [fixPlayer, fixPoints_idem]

theorem fixPlayer_raw (p : Player) : rawPlayer (fixPlayer p) = rawPlayer p := by
  simp [fixPlayer, rawPlayer, fixPoints_TotalStr]

theorem mapFixPlayer_idem (ps : List Player) :
    (ps.map fixPlayer).map fixPlayer = ps.map fixPlayer := by
  induction ps with
  | nil => rfl
  | cons p rest ih => simp only [List.map_cons, fixPlayer_idem, ih]

theorem mapFixPlayer_raw (ps : List Player) :
    (ps.map fixPlayer).map rawPlayer = ps.map rawPlayer := by
  induction ps with
  | nil => rfl
  | cons p rest ih => simp only [List.map_cons, fixPlayer_raw, ih]

mutual
/-- When `fixTeam` succeeds, applying it again to its result is the identity
(in the `Option` sense), and the result has the same raw text strings as the
input. -/
theorem fixTeam_fix : ∀ t t', fixTeam t = some t' →
    fixTeam t' = some t' ∧ rawTeam t' = rawTeam t
  | .mk tk tid nm url logos owned wp nmoves ntrades mgrs ms roster tp tpp ts ps, t', h => by
    rw [fixTeam] at h
    cases hms : fixMatchupList ms with
    | none => rw [hms] at h; exact absurd h (by simp)
    | some ms' =>
      rw [hms] at h
      simp only [Option.some.injEq] at h
      subst h
      obtain ⟨hidem, hraw⟩ := fixMatchupList_fix ms ms' hms
      constructor
      · rw [fixTeam, hidem]
        simp only [fixPoints_idem, fixRank_idem, mapFixPlayer_idem]
      · simp only [rawTeam, fixPoints_TotalStr, fixRank_RankStr, mapFixPlayer_raw, hraw]

theorem fixMatchupList_fix : ∀ ms ms', fixMatchupList ms = some ms' →
    fixMatchupList ms' = some ms' ∧ rawMatchupList ms' = rawMatchupList ms
  | [], ms', h => by
    rw [fixMatchupList] at h
    simp only [Option.some.injEq] at h
    subst h
    exact ⟨by rw [fixMatchupList], rfl⟩
  | m :: rest, ms', h => by
    rw [fixMatchupList] at h
    cases hm : fixMatchup m with
    | none => rw [hm] at h; exact absurd h (by simp)
    | some m' =>
      cases hrest : fixMatchupList rest with
      | none => rw [hm, hrest] at h; exact absurd h (by simp)
      | some rest' =>
        rw [hm, hrest] at h
        simp only [Option.some.injEq] at h
        subst h
        obtain ⟨hm2, hmr⟩ := fixMatchup_fix m m' hm
        obtain ⟨hrest2, hrestr⟩ := fixMatchupList_fix rest rest' hrest
        constructor
        · rw [fixMatchupList, hm2, hrest2]
        · simp only [rawMatchupList, hmr, hrestr]

theorem fixMatchup_fix : ∀ m m', fixMatchup m = some m' →
    fixMatchup m' = some m' ∧ rawMatchup m' = rawMatchup m
  | .mk wk [], m', h => by simp [fixMatchup] at h
  | .mk wk [t], m', h => by simp [fixMatchup] at h
  | .mk wk (t0 :: t1 :: rest), m', h => by
    rw [fixMatchup] at h
    cases h0 : fixTeam t0 with
    | none => rw [h0] at h; exact absurd h (by simp)
    | some t0' =>
      cases h1 : fixTeam t1 with
      | none => rw [h0, h1] at h; exact absurd h (by simp)
      | some t1' =>
        rw [h0, h1] at h
        simp only [Option.some.injEq] at h
        subst h
        obtain ⟨h02, h0r⟩ := fixTeam_fix t0 t0' h0
        obtain ⟨h12, h1r⟩ := fixTeam_fix t1 t1' h1
        constructor
        · rw [fixMatchup, h02, h12]
        · simp only [rawMatchup, rawTeamList, h0r, h1r]
end

theorem fixTeamList_fix : ∀ ts ts', fixTeamList ts = some ts' →
    fixTeamList ts' = some ts' ∧ rawTeamList ts' = rawTeamList ts := by
  intro ts
  induction ts with
  | nil =>
    intro ts' h
    rw [fixTeamList] at h
    simp only [Option.some.injEq] at h
    subst h
    exact ⟨by rw [fixTeamList], rfl⟩
  | cons t rest ih =>
    intro ts' h
    rw [fixTeamList] at h
    cases ht : fixTeam t with
    | none => rw [ht] at h; exact absurd h (by simp)
    | some t' =>
      cases hrest : fixTeamList rest with
      | none => rw [ht, hrest] at h; exact absurd h (by simp)
      | some rest' =>
        rw [ht, hrest] at h
        simp only [Option.some.injEq] at h
        subst h
        obtain ⟨ht2, htr⟩ := fixTeam_fix t t' ht
        obtain ⟨hrest2, hrestr⟩ := ih rest' hrest
        constructor
        · rw [fixTeamList, ht2, hrest2]
        · simp only [rawTeamList, htr, hrestr]

/-!
Concrete example documents used by witnesses and counterexamples.
-/

/-- A zero-valued `Points` struct (all fields at their Go zero values, as a
freshly decoded document with absent elements would have). -/
def emptyPoints : Points := ⟨"", "", 0, 0, ""⟩

/-- A team whose fields are all zero-valued except the given matchup list and
team points. -/
def mkTeam (ms : List Matchup) (tp : Points) : Team :=
  .mk "" 0 "" "" [] false 0 0 0 [] ms ⟨"", [], 0⟩ tp ⟨"", "", 0, 0, ""⟩
    ⟨0, "", ⟨0, 0, 0⟩, 0, 0⟩ []

/-- A document whose fields are all zero-valued except the given top-level
team and league scoreboard matchup list. -/
def mkContent (team : Team) (sbMatchups : List Matchup) : FantasyContent :=
  { XMLName := ⟨"", "fantasy_content"⟩
    League := { LeagueKey := "", LeagueID := 0, Name := "", URL := "", Players := []
                Teams := [], DraftStatus := "", CurrentWeek := 0, StartWeek := 0
                EndWeek := 0, IsFinished := false, Standings := []
                Scoreboard := ⟨"", sbMatchups⟩, Settings := ⟨"", "", false, 0⟩ }
    Team := team
    Users := [] }

/-- C3: document repair is idempotent — for every decoded document on which
repair succeeds, applying `fixContent` to the repaired document succeeds and
returns it unchanged, and the repaired document carries exactly the same raw
text fields (every `Points.TotalStr` and `TeamStandings.RankStr` reachable by
the repair traversal) as the original. -/
theorem fixContent_idempotent : ∀ c c', fixContent c = some c' →
    fixContent c' = some c' ∧ rawContent c' = rawContent c := by
  intro c c' h
  rw [fixContent] at h
  cases hteam : fixTeam c.Team with
  | none => rw [hteam] at h; exact absurd h (by simp)
  | some team' =>
  cases hteams : fixTeamList c.League.Teams with
  | none => rw [hteam, hteams] at h; exact absurd h (by simp)
  | some teams' =>
  cases hst : fixTeamList c.League.Standings with
  | none => rw [hteam, hteams, hst] at h; exact absurd h (by simp)
  | some standings' =>
  cases hsb : fixMatchupList c.League.Scoreboard.Matchups with
  | none => rw [hteam, hteams, hst, hsb] at h; exact absurd h (by simp)
  | some sb' =>
    rw [hteam, hteams, hst, hsb] at h
    simp only [Option.some.injEq] at h
    subst h
    obtain ⟨ht2, htr⟩ := fixTeam_fix _ _ hteam
    obtain ⟨hts2, htsr⟩ := fixTeamList_fix _ _ hteams
    obtain ⟨hst2, hstr⟩ := fixTeamList_fix _ _ hst
    obtain ⟨hsb2, hsbr⟩ := fixMatchupList_fix _ _ hsb
    constructor
    · rw [fixContent]
      simp only [ht2, hts2, hst2, hsb2, mapFixPlayer_idem]
    · simp only [rawContent, htr, htsr, hstr, hsbr, mapFixPlayer_raw]

/-- Witness for C3 at a concrete document: the top-level team's points carry
raw text "7" and derived total 0; repair sets the total to 7, and repairing
the result again is the identity. -/
theorem fixContent_idempotent_witness :
    fixContent (mkContent (mkTeam [] ⟨"", "", 0, 7, "7"⟩) []) =
      some (mkContent (mkTeam [] ⟨"", "", 0, 7, "7"⟩) []) ∧
    rawContent (mkContent (mkTeam [] ⟨"", "", 0, 7, "7"⟩) []) =
      rawContent (mkContent (mkTeam [] ⟨"", "", 0, 0, "7"⟩) []) :=
  fixContent_idempotent (mkContent (mkTeam [] ⟨"", "", 0, 0, "7"⟩) [])
    (mkContent (mkTeam [] ⟨"", "", 0, 7, "7"⟩) []) (by
      have h : parseDecimalParts "7" = some (false, 7, 0, 0) := by decide
      have hne : ("7" : String) ≠ "" := by decide
      simp only [mkContent, mkTeam, fixContent, fixTeam, fixTeamList, fixMatchupList,
        fixPoints, fixRank, goParseFloat, h, hne, List.map_nil, ne_eq,
        not_false_eq_true, if_true, Option.map_some]
      norm_num [ratOfParts])

/-!
C5: which teams does repair reach?
-/

/-- The relation between a team and its repaired form. -/
def fixTeamRel (t t' : Team) : Prop := fixTeam t = some t'

/-- The relation between a matchup and its repaired form. -/
def fixMatchupRel (m m' : Matchup) : Prop := fixMatchup m = some m'

theorem fixTeamList_forall : ∀ ts ts', fixTeamList ts = some ts' →
    List.Forall₂ fixTeamRel ts ts' := by
  intro ts
  induction ts with
  | nil =>
    intro ts' h
    rw [fixTeamList] at h
    simp only [Option.some.injEq] at h
    subst h
    exact List.Forall₂.nil
  | cons t rest ih =>
    intro ts' h
    rw [fixTeamList] at h
    cases ht : fixTeam t with
    | none => rw [ht] at h; exact absurd h (by simp)
    | some t' =>
      cases hrest : fixTeamList rest with
      | none => rw [ht, hrest] at h; exact absurd h (by simp)
      | some rest' =>
        rw [ht, hrest] at h
        simp only [Option.some.injEq] at h
        subst h
        exact List.Forall₂.cons ht (ih rest' hrest)

theorem fixMatchupList_forall : ∀ ms ms', fixMatchupList ms = some ms' →
    List.Forall₂ fixMatchupRel ms ms' := by
  intro ms
  induction ms with
  | nil =>
    intro ms' h
    rw [fixMatchupList] at h
    simp only [Option.some.injEq] at h
    subst h
    exact List.Forall₂.nil
  | cons m rest ih =>
    intro ms' h
    rw [fixMatchupList] at h
    cases hm : fixMatchup m with
    | none => rw [hm] at h; exact absurd h (by simp)
    | some m' =>
      cases hrest : fixMatchupList rest with
      | none => rw [hm, hrest] at h; exact absurd h (by simp)
      | some rest' =>
        rw [hm, hrest] at h
        simp only [Option.some.injEq] at h
        subst h
        exact List.Forall₂.cons hm (ih rest' hrest)

/-- C5 amended: repair reaches the top-level team, every league team, every
standings team, every league player, and, in each matchup (scoreboard or
nested), exactly the teams at indices 0 and 1 — it repairs the first two
teams of a matchup and carries every team from index 2 on over unchanged. -/
theorem fixContent_repairs_reachable_teams :
    (∀ m m', fixMatchup m = some m' →
      2 ≤ m.Teams.length ∧ m'.Week = m.Week ∧
      List.Forall₂ fixTeamRel (m.Teams.take 2) (m'.Teams.take 2) ∧
      m'.Teams.drop 2 = m.Teams.drop 2) ∧
    (∀ c c', fixContent c = some c' →
      fixTeamRel c.Team c'.Team ∧
      List.Forall₂ fixTeamRel c.League.Teams c'.League.Teams ∧
      List.Forall₂ fixTeamRel c.League.Standings c'.League.Standings ∧
      c'.League.Players = c.League.Players.map fixPlayer ∧
      List.Forall₂ fixMatchupRel c.League.Scoreboard.Matchups
        c'.League.Scoreboard.Matchups) := by
  constructor
  · intro m m' h
    match m with
    | .mk wk [] => simp [fixMatchup] at h
    | .mk wk [t] => simp [fixMatchup] at h
    | .mk wk (t0 :: t1 :: rest) =>
      rw [fixMatchup] at h
      cases h0 : fixTeam t0 with
      | none => rw [h0] at h; exact absurd h (by simp)
      | some t0' =>
        cases h1 : fixTeam t1 with
        | none => rw [h0, h1] at h; exact absurd h (by simp)
        | some t1' =>
          rw [h0, h1] at h
          simp only [Option.some.injEq] at h
          subst h
          refine ⟨by simp [Matchup.Teams], by simp [Matchup.Week], ?_, by simp [Matchup.Teams]⟩
          simp only [Matchup.Teams, List.take]
          exact List.Forall₂.cons h0 (List.Forall₂.cons h1 List.Forall₂.nil)
  · intro c c' h
    rw [fixContent] at h
    cases hteam : fixTeam c.Team with
    | none => rw [hteam] at h; exact absurd h (by simp)
    | some team' =>
    cases hteams : fixTeamList c.League.Teams with
    | none => rw [hteam, hteams] at h; exact absurd h (by simp)
    | some teams' =>
    cases hst : fixTeamList c.League.Standings with
    | none => rw [hteam, hteams, hst] at h; exact absurd h (by simp)
    | some standings' =>
    cases hsb : fixMatchupList c.League.Scoreboard.Matchups with
    | none => rw [hteam, hteams, hst, hsb] at h; exact absurd h (by simp)
    | some sb' =>
      rw [hteam, hteams, hst, hsb] at h
      simp only [Option.some.injEq] at h
      subst h
      exact ⟨hteam, fixTeamList_forall _ _ hteams, fixTeamList_forall _ _ hst, rfl,
        fixMatchupList_forall _ _ hsb⟩

/-- Repairing the all-zero points struct changes nothing (its raw text is
empty). -/
theorem fixPoints_empty : fixPoints emptyPoints = emptyPoints := by
  simp [fixPoints, emptyPoints]

/-- Repairing a team with no matchups, no players and zero-valued points is
the identity. -/
theorem fixTeam_plain : fixTeam (mkTeam [] emptyPoints) = some (mkTeam [] emptyPoints) := by
  simp [mkTeam, emptyPoints, fixTeam, fixMatchupList, fixPoints, fixRank]

/-- A two-team matchup of plain teams. -/
def pairMatchup : Matchup := Matchup.mk 1 [mkTeam [] emptyPoints, mkTeam [] emptyPoints]

/-- A document with a plain top-level team and nothing else. -/
def plainContent : FantasyContent := mkContent (mkTeam [] emptyPoints) []

theorem fixMatchup_pair : fixMatchup pairMatchup = some pairMatchup := by
  simp [pairMatchup, fixMatchup, fixTeam_plain]

theorem fixContent_plain : fixContent plainContent = some plainContent := by
  simp [plainContent, mkContent, fixContent, fixTeam_plain, fixTeamList, fixMatchupList]

/-- Witness for C5's amended statement at a concrete two-team matchup and a
concrete document. -/
theorem fixContent_repairs_reachable_teams_witness :
    (2 ≤ pairMatchup.Teams.length ∧ pairMatchup.Week = pairMatchup.Week ∧
      List.Forall₂ fixTeamRel (pairMatchup.Teams.take 2) (pairMatchup.Teams.take 2) ∧
      pairMatchup.Teams.drop 2 = pairMatchup.Teams.drop 2) ∧
    (fixTeamRel plainContent.Team plainContent.Team ∧
      List.Forall₂ fixTeamRel plainContent.League.Teams plainContent.League.Teams ∧
      List.Forall₂ fixTeamRel plainContent.League.Standings plainContent.League.Standings ∧
      plainContent.League.Players = plainContent.League.Players.map fixPlayer ∧
      List.Forall₂ fixMatchupRel plainContent.League.Scoreboard.Matchups
        plainContent.League.Scoreboard.Matchups) :=
  ⟨fixContent_repairs_reachable_teams.1 pairMatchup pairMatchup fixMatchup_pair,
   fixContent_repairs_reachable_teams.2 plainContent plainContent fixContent_plain⟩

/-- The points of the j-th team (0-based) of the i-th league scoreboard
matchup of a document. -/
def nthScoreboardTeamPoints (c : FantasyContent) (i j : Nat) : Option Points :=
  ((c.League.Scoreboard.Matchups[i]?).bind fun m => m.Teams[j]?).map Team.TeamPoints

/-- A document whose single scoreboard matchup has three teams; the third
team's points carry parseable raw text "5" but derived total 0. -/
def thirdTeamDoc : FantasyContent :=
  mkContent (mkTeam [] emptyPoints)
    [Matchup.mk 1 [mkTeam [] emptyPoints, mkTeam [] emptyPoints, mkTeam [] ⟨"", "", 0, 0, "5"⟩]]

/-- Counterexample to C5 as stated: repair succeeds on `thirdTeamDoc` but
leaves the team at index 2 of the scoreboard matchup unrepaired — its points
still have derived total 0 and raw text "5", although repairing those points
would change them (to total 5). -/
theorem fixContent_skips_third_matchup_team :
    ((fixContent thirdTeamDoc).bind fun c => nthScoreboardTeamPoints c 0 2) =
      some ⟨"", "", 0, 0, "5"⟩ ∧
    fixPoints ⟨"", "", 0, 0, "5"⟩ ≠ ⟨"", "", 0, 0, "5"⟩ := by
  constructor
  · simp only [thirdTeamDoc, mkContent, fixContent, fixTeam_plain, fixTeamList,
      fixMatchupList, fixMatchup, fixTeam_plain, List.map_nil]
    simp [nthScoreboardTeamPoints, Team.TeamPoints, Matchup.Teams, mkTeam]
  · have h : parseDecimalParts "5" = some (false, 5, 0, 0) := by decide
    have hne : ("5" : String) ≠ "" := by decide
    simp only [fixPoints, goParseFloat, h, hne, ne_eq, not_false_eq_true, if_true,
      Option.map_some]
    intro hcontra
    have : ratOfParts false 5 0 0 = 0 := congrArg Points.Total hcontra
    norm_num [ratOfParts] at this

/-!
C6: repair can panic on matchups with fewer than two teams; it is total on
documents whose reachable matchups all have at least two teams.
-/

/-- A successfully-parseable document whose top-level team has a matchup with
an empty team list (e.g. decoded from `<matchup><teams/></matchup>`). -/
def emptyMatchupDoc : FantasyContent :=
  mkContent (mkTeam [Matchup.mk 1 []] emptyPoints) []

/-- Counterexample to C6 as stated: repairing `emptyMatchupDoc` hits the
unconditional `Teams[0]` index of `fixTeam` and panics (`none`), so the
Content Decoder would not return a repaired document for it. -/
theorem fixContent_empty_matchup_panics : fixContent emptyMatchupDoc = none := by
  simp [emptyMatchupDoc, mkContent, mkTeam, fixContent, fixTeam, fixMatchupList, fixMatchup]

mutual
theorem fixTeam_total : ∀ t, teamWF t = true → (fixTeam t).isSome = true
  | .mk tk tid nm url logos owned wp nmoves ntrades mgrs ms roster tp tpp ts ps, h => by
    rw [teamWF] at h
    have hms2 := fixMatchupList_total ms h
    rw [fixTeam]
    cases hms : fixMatchupList ms with
    | none => rw [hms] at hms2; simp at hms2
    | some ms' => simp

theorem fixMatchupList_total : ∀ ms, matchupListWF ms = true → (fixMatchupList ms).isSome = true
  | [], _ => by rw [fixMatchupList]; rfl
  | m :: rest, h => by
    rw [matchupListWF] at h
    simp only [Bool.and_eq_true] at h
    have h1 := fixMatchup_total m h.1
    have h2 := fixMatchupList_total rest h.2
    rw [fixMatchupList]
    cases hm : fixMatchup m with
    | none => rw [hm] at h1; simp at h1
    | some m' =>
      cases hr : fixMatchupList rest with
      | none => rw [hr] at h2; simp at h2
      | some rest' => simp

theorem fixMatchup_total : ∀ m, matchupWF m = true → (fixMatchup m).isSome = true
  | .mk wk [], h => by simp [matchupWF] at h
  | .mk wk [t], h => by simp [matchupWF] at h
  | .mk wk (t0 :: t1 :: rest), h => by
    rw [matchupWF] at h
    simp only [Bool.and_eq_true] at h
    have h0 := fixTeam_total t0 h.1
    have h1 := fixTeam_total t1 h.2
    rw [fixMatchup]
    cases q0 : fixTeam t0 with
    | none => rw [q0] at h0; simp at h0
    | some t0' =>
      cases q1 : fixTeam t1 with
      | none => rw [q1] at h1; simp at h1
      | some t1' => simp
end

theorem fixTeamList_total : ∀ ts, teamListWF ts = true → (fixTeamList ts).isSome = true := by
  intro ts
  induction ts with
  | nil => intro _; rw [fixTeamList]; rfl
  | cons t rest ih =>
    intro h
    rw [teamListWF] at h
    simp only [Bool.and_eq_true] at h
    have h1 := fixTeam_total t h.1
    have h2 := ih h.2
    rw [fixTeamList]
    cases ht : fixTeam t with
    | none => rw [ht] at h1; simp at h1
    | some t' =>
      cases hr : fixTeamList rest with
      | none => rw [hr] at h2; simp at h2
      | some rest' => simp

/-- C6 amended: repair never fails on a document in which every matchup
reachable by the repair traversal has at least two teams (in particular on
everything the upstream service actually emits); on a document with an empty
or one-team matchup it panics instead of returning a repaired document. -/
theorem fixContent_total_of_wf : ∀ c, contentWF c = true → (fixContent c).isSome = true := by
  intro c h
  rw [contentWF] at h
  simp only [Bool.and_eq_true] at h
  obtain ⟨⟨⟨h1, h2⟩, h3⟩, h4⟩ := h
  have q1 := fixTeam_total _ h1
  have q2 := fixTeamList_total _ h2
  have q3 := fixTeamList_total _ h3
  have q4 := fixMatchupList_total _ h4
  rw [fixContent]
  cases e1 : fixTeam c.Team with
  | none => rw [e1] at q1; simp at q1
  | some team' =>
  cases e2 : fixTeamList c.League.Teams with
  | none => rw [e2] at q2; simp at q2
  | some teams' =>
  cases e3 : fixTeamList c.League.Standings with
  | none => rw [e3] at q3; simp at q3
  | some standings' =>
  cases e4 : fixMatchupList c.League.Scoreboard.Matchups with
  | none => rw [e4] at q4; simp at q4
  | some sb' => simp

/-- Witness for C6's amended statement: a concrete well-formed document on
which repair succeeds. -/
theorem fixContent_total_of_wf_witness : (fixContent plainContent).isSome = true :=
  fixContent_total_of_wf plainContent (by
    simp [contentWF, plainContent, mkContent, mkTeam, teamWF, teamListWF, matchupListWF])

/-!
C8: blank and populated numeric leafs.
-/

/-- C8: decoding an empty `<total/>` leaf yields empty raw text and, after
repair, derived total 0; decoding `<total>543.21</total>` yields, after
repair, derived total 543.21. -/
theorem blankNumericFieldRepair :
    (fixPoints (decodePointsTotal "")).Total = 0 ∧
    (fixPoints (decodePointsTotal "543.21")).Total = 543.21 := by
  constructor
  · simp [decodePointsTotal, fixPoints]
  · have h : parseDecimalParts "543.21" = some (false, 543, 21, 2) := by decide
    have hne : ("543.21" : String) ≠ "" := by decide
    simp only [decodePointsTotal, fixPoints, goParseFloat, h, hne, ne_eq,
      not_false_eq_true, if_true, Option.map_some]
    norm_num [ratOfParts]

/-!
C2: cache key derivation and windowing.
-/

/-- The cache of the spec's windowing example: client "c1" with a one-hour
maximum duration (`time.Hour` is 3600 * 10^9 nanoseconds). -/
def hourCache : LRUCache := NewLRUCache "c1" (3600 * 1000000000)

/-- C2 amended: the cache key is
`clientID ++ ":" ++ url ++ ":" ++ toString (unixTime tdiv windowSeconds)`;
for client "c1", URL "u" and W = 3600, Unix time 1408281677 yields key
"c1:u:391189", while 3599 seconds later the epoch-aligned window has already
changed, so the key is "c1:u:391190" — the same key as at 3600 seconds
later. -/
theorem cacheKeyWindowing :
    (∀ (l : LRUCache) (u : String) (t : Int), l.DurationSeconds ≠ 0 →
      l.getKey u t =
        some (l.ClientID ++ ":" ++ u ++ ":" ++ toString (Int.tdiv t l.DurationSeconds))) ∧
    hourCache.getKey "u" 1408281677 = some "c1:u:391189" ∧
    hourCache.getKey "u" (1408281677 + 3599) = some "c1:u:391190" ∧
    hourCache.getKey "u" (1408281677 + 3600) = some "c1:u:391190" := by
  refine ⟨?_, by decide, by decide, by decide⟩
  intro l u t h
  simp [LRUCache.getKey, h]

/-- Witness for C2's amended statement at the concrete example cache. -/
theorem cacheKeyWindowing_witness :
    hourCache.getKey "u" 1408281677 =
      some (hourCache.ClientID ++ ":" ++ "u" ++ ":" ++
        toString (Int.tdiv 1408281677 hourCache.DurationSeconds)) :=
  cacheKeyWindowing.1 hourCache "u" 1408281677 (by decide)

/-- Counterexample to C2 as stated: at `T + 3599` the key differs from the
key at `T` (both windows are epoch-aligned, and `T` lies 1277 seconds into
its window, so the window changes after 2323 more seconds, not 3599). -/
theorem cacheKeyWindowing_counterexample :
    hourCache.getKey "u" (1408281677 + 3599) ≠ hourCache.getKey "u" 1408281677 := by
  decide

/-!
C9: a stored value of the wrong type is a miss, not a crash.
-/

/-- C9: if the backing store maps the computed key to a value that is not the
`*LRUCacheValue` wrapper, `LRUCache.Get` returns `(nil, false)` — a plain
miss, produced without panicking. -/
theorem cacheTypeMismatchMiss :
    ∀ (l : LRUCache) (u : String) (t : Int) (s : LRUStore) (k : String),
      l.getKey u t = some k →
      storeLookup k s = some StoredValue.foreignValue →
      l.get u t s = some (none, false) := by
  intro l u t s k hk hs
  simp [LRUCache.get, hk, hs]

/-- Witness for C9: a concrete store holding a foreign value under the
computed key. -/
theorem cacheTypeMismatchMiss_witness :
    hourCache.get "u" 1408281677 [("c1:u:391189", StoredValue.foreignValue)] =
      some (none, false) :=
  cacheTypeMismatchMiss hourCache "u" 1408281677
    [("c1:u:391189", StoredValue.foreignValue)] "c1:u:391189"
    (by decide) (by simp [storeLookup])

/-!
C10: duration below one second gives `DurationSeconds = 0` and key
derivation panics with a division by zero.
-/

/-- C10: a cache built by `NewLRUCache` from a (nonnegative) duration shorter
than one second has `DurationSeconds = 0`; on any cache with
`DurationSeconds = 0` the key derivation — and with it `Get` and `Set` —
performs an integer division by zero and panics (`none`); with
`DurationSeconds ≥ 1` key derivation always succeeds. -/
theorem lruCacheZeroDuration :
    (∀ (cid : String) (d : Int), 0 ≤ d → d < 1000000000 →
      (NewLRUCache cid d).DurationSeconds = 0) ∧
    (∀ (l : LRUCache) (u : String) (t : Int) (s : LRUStore)
        (content : Option FantasyContent), l.DurationSeconds = 0 →
      l.getKey u t = none ∧ l.get u t s = none ∧ l.set u t content s = none) ∧
    (∀ (l : LRUCache) (u : String) (t : Int), 1 ≤ l.DurationSeconds →
      (l.getKey u t).isSome = true) := by
  refine ⟨?_, ?_, ?_⟩
  · intro cid d h0 h1
    obtain ⟨n, rfl⟩ := Int.eq_ofNat_of_zero_le h0
    have hn : n < 1000000000 := by exact_mod_cast h1
    simp only [NewLRUCache, Int.tdiv]
    norm_num [Nat.div_eq_of_lt hn]
  · intro l u t s content h
    have hk : l.getKey u t = none := by simp [LRUCache.getKey, h]
    exact ⟨hk, by simp [LRUCache.get, hk], by simp [LRUCache.set, hk]⟩
  · intro l u t h
    have : l.DurationSeconds ≠ 0 := by omega
    simp [LRUCache.getKey, this]

/-- Witness for C10: a 500-millisecond cache has `DurationSeconds = 0` and
its operations panic; the one-hour cache derives keys successfully. -/
theorem lruCacheZeroDuration_witness :
    (NewLRUCache "c1" 500000000).DurationSeconds = 0 ∧
    ((NewLRUCache "c1" 500000000).getKey "u" 1408281677 = none ∧
      (NewLRUCache "c1" 500000000).get "u" 1408281677 [] = none ∧
      (NewLRUCache "c1" 500000000).set "u" 1408281677 none [] = none) ∧
    (hourCache.getKey "u" 1408281677).isSome = true :=
  ⟨lruCacheZeroDuration.1 "c1" 500000000 (by decide) (by decide),
   lruCacheZeroDuration.2.1 (NewLRUCache "c1" 500000000) "u" 1408281677 [] none (by decide),
   lruCacheZeroDuration.2.2 hourCache "u" 1408281677 (by decide)⟩

/-!
C7: the cached provider inserts nothing on delegate error and inserts under
the start-of-call key on delegate success.
-/

/-- C7: on a cache miss, if the delegate returns an error then the cached
provider returns exactly the delegate's `(content, err)` pair with the store
unchanged (so the URL/window still has no entry), and if the delegate
succeeds then the provider returns the delegate's content after inserting it
under the key computed from the time taken at the start of the call (so a
lookup at that same time now hits). -/
theorem cachedProviderGet_spec :
    ∀ (l : LRUCache) (delegate : Delegate) (u : String) (t : Int) (s : LRUStore)
      (k : String),
      l.getKey u t = some k →
      l.get u t s = some (none, false) →
      (∀ content e, delegate u = (content, some e) →
        cachedContentProviderGet l delegate u t s = some ((content, some e), s) ∧
        l.get u t s = some (none, false)) ∧
      (∀ content, delegate u = (content, none) →
        cachedContentProviderGet l delegate u t s =
          some ((content, none), storeSet k (StoredValue.lruCacheValue content) s) ∧
        l.get u t (storeSet k (StoredValue.lruCacheValue content) s) =
          some (content, true)) := by
  intro l delegate u t s k hk hmiss
  constructor
  · intro content e hdel
    refine ⟨?_, hmiss⟩
    simp only [cachedContentProviderGet, hmiss]
    simp [hdel]
  · intro content hdel
    constructor
    · simp only [cachedContentProviderGet, hmiss]
      simp [hdel, LRUCache.set, hk]
    · simp [LRUCache.get, hk, storeSet, storeLookup]

/-- A delegate that always fails. -/
def errorDelegate : Delegate := fun _ => (none, some (GoffError.message "connection reset"))

/-- A delegate that always succeeds with the plain document. -/
def okDelegate : Delegate := fun _ => (some plainContent, none)

/-- Witness for C7 at a concrete cache, store, and both kinds of delegate. -/
theorem cachedProviderGet_spec_witness :
    (cachedContentProviderGet hourCache errorDelegate "u" 1408281677 [] =
        some ((none, some (GoffError.message "connection reset")), []) ∧
      hourCache.get "u" 1408281677 [] = some (none, false)) ∧
    (cachedContentProviderGet hourCache okDelegate "u" 1408281677 [] =
        some ((some plainContent, none),
          storeSet "c1:u:391189" (StoredValue.lruCacheValue (some plainContent)) []) ∧
      hourCache.get "u" 1408281677
          (storeSet "c1:u:391189" (StoredValue.lruCacheValue (some plainContent)) []) =
        some (some plainContent, true)) := by
  have hk : hourCache.getKey "u" 1408281677 = some "c1:u:391189" := by decide
  have hmiss : hourCache.get "u" 1408281677 [] = some (none, false) := by
    simp [LRUCache.get, hk, storeLookup]
  exact
    ⟨(cachedProviderGet_spec hourCache errorDelegate "u" 1408281677 [] "c1:u:391189"
        hk hmiss).1 none (GoffError.message "connection reset") rfl,
     (cachedProviderGet_spec hourCache okDelegate "u" 1408281677 [] "c1:u:391189"
        hk hmiss).2 (some plainContent) rfl⟩

/-!
C1/C4: the counting/retrying client.
-/

theorem retryLoop_ok (tr : Transport) (fuel rc : Nat) (res : HTTPResult)
    (h : res.2 = none) : retryLoop tr fuel rc res = (res, rc) := by
  cases fuel with
  | zero => rw [retryLoop]
  | succ n => simp [retryLoop, h]

theorem retryLoop_stop (tr : Transport) (fuel rc : Nat) (res : HTTPResult) (e : GoffError)
    (h : res.2 = some e) (hc : goContains e.text consumerKeyUnknownSentinel = false) :
    retryLoop tr (fuel + 1) rc res = (res, rc) := by
  simp [retryLoop, h, hc]

theorem retryLoop_step (tr : Transport) (fuel rc : Nat) (res : HTTPResult) (e : GoffError)
    (h : res.2 = some e) (hc : goContains e.text consumerKeyUnknownSentinel = true) :
    retryLoop tr (fuel + 1) rc res = retryLoop tr fuel (rc + 1) (tr (rc + 1)) := by
  simp [retryLoop, h, hc]

theorem countingGet_of_ok (tr : Transport) (rc0 : Nat) (r : HTTPResult) (rc : Nat)
    (hraw : rawGetResult tr rc0 = (r, rc)) (h : r.2 = none) :
    countingGet tr rc0 = (r, rc) := by
  simp only [countingGet, hraw]
  simp [h]

theorem countingGet_of_err (tr : Transport) (rc0 : Nat) (r : HTTPResult) (rc : Nat)
    (e : GoffError) (hraw : rawGetResult tr rc0 = (r, rc)) (h : r.2 = some e)
    (ha : goContains e.text accessDeniedSentinel = false) :
    countingGet tr rc0 = (r, rc) := by
  simp only [countingGet, hraw]
  simp only [h, ha, Bool.false_eq_true, if_false]

theorem countingGet_of_denied (tr : Transport) (rc0 : Nat) (r : HTTPResult) (rc : Nat)
    (e : GoffError) (hraw : rawGetResult tr rc0 = (r, rc)) (h : r.2 = some e)
    (ha : goContains e.text accessDeniedSentinel = true) :
    countingGet tr rc0 = ((r.1, some GoffError.accessDenied), rc) := by
  simp only [countingGet, hraw]
  simp [h, ha]

/-- A transport that fails on every call with a bare transient-sentinel
error. -/
def alwaysFailingTransport : Transport :=
  fun _ => (none, some (GoffError.message "consumer_key_unknown"))

/-- Counterexample to C1 as stated: against a transport that always fails
with the transient sentinel, a single `Get` makes 5 attempts (1 initial + 4
retries), not 4. -/
theorem retryBound_counterexample :
    (countingGet alwaysFailingTransport 0).2 = 5 ∧
    (countingGet alwaysFailingTransport 0).2 ≠ 4 := by
  decide

/-- C1 amended: against a transport that fails with the transient sentinel on
every attempt, a single `Get` makes exactly 5 attempts (1 initial + 4
retries) and returns the transport's 5th result (the last error); against a
transport that succeeds on its Nth call (N ≤ 5) after transient-sentinel
errors on the prior calls, `Get` returns that success and the request counter
equals N. -/
theorem retryBound :
    (∀ tr : Transport,
      (∀ n, 1 ≤ n → n ≤ 5 → ∃ e, (tr n).2 = some e ∧
        goContains e.text consumerKeyUnknownSentinel = true ∧
        goContains e.text accessDeniedSentinel = false) →
      countingGet tr 0 = (tr 5, 5)) ∧
    (∀ (tr : Transport) (N : Nat), 1 ≤ N → N ≤ 5 →
      (∀ n, 1 ≤ n → n < N → ∃ e, (tr n).2 = some e ∧
        goContains e.text consumerKeyUnknownSentinel = true) →
      (tr N).2 = none →
      countingGet tr 0 = (tr N, N)) := by
  constructor
  · intro tr h
    obtain ⟨e1, h1, c1, -⟩ := h 1 (by omega) (by omega)
    obtain ⟨e2, h2, c2, -⟩ := h 2 (by omega) (by omega)
    obtain ⟨e3, h3, c3, -⟩ := h 3 (by omega) (by omega)
    obtain ⟨e4, h4, c4, -⟩ := h 4 (by omega) (by omega)
    obtain ⟨e5, h5, -, a5⟩ := h 5 (by omega) (by omega)
    have s1 : retryLoop tr 4 1 (tr 1) = retryLoop tr 3 2 (tr 2) :=
      retryLoop_step tr 3 1 (tr 1) e1 h1 c1
    have s2 : retryLoop tr 3 2 (tr 2) = retryLoop tr 2 3 (tr 3) :=
      retryLoop_step tr 2 2 (tr 2) e2 h2 c2
    have s3 : retryLoop tr 2 3 (tr 3) = retryLoop tr 1 4 (tr 4) :=
      retryLoop_step tr 1 3 (tr 3) e3 h3 c3
    have s4 : retryLoop tr 1 4 (tr 4) = retryLoop tr 0 5 (tr 5) :=
      retryLoop_step tr 0 4 (tr 4) e4 h4 c4
    have s5 : retryLoop tr 0 5 (tr 5) = (tr 5, 5) := by rw [retryLoop]
    have hraw : rawGetResult tr 0 = (tr 5, 5) :=
      ((((s1.trans s2).trans s3).trans s4).trans s5)
    exact countingGet_of_err tr 0 (tr 5) 5 e5 hraw h5 a5
  · intro tr N hN1 hN5 herr hok
    interval_cases N
    · have hraw : rawGetResult tr 0 = (tr 1, 1) := retryLoop_ok tr 4 1 (tr 1) hok
      exact countingGet_of_ok tr 0 (tr 1) 1 hraw hok
    · obtain ⟨e1, h1, c1⟩ := herr 1 (by omega) (by omega)
      have s1 : retryLoop tr 4 1 (tr 1) = retryLoop tr 3 2 (tr 2) :=
        retryLoop_step tr 3 1 (tr 1) e1 h1 c1
      have hraw : rawGetResult tr 0 = (tr 2, 2) :=
        s1.trans (retryLoop_ok tr 3 2 (tr 2) hok)
      exact countingGet_of_ok tr 0 (tr 2) 2 hraw hok
    · obtain ⟨e1, h1, c1⟩ := herr 1 (by omega) (by omega)
      obtain ⟨e2, h2, c2⟩ := herr 2 (by omega) (by omega)
      have s1 : retryLoop tr 4 1 (tr 1) = retryLoop tr 3 2 (tr 2) :=
        retryLoop_step tr 3 1 (tr 1) e1 h1 c1
      have s2 : retryLoop tr 3 2 (tr 2) = retryLoop tr 2 3 (tr 3) :=
        retryLoop_step tr 2 2 (tr 2) e2 h2 c2
      have hraw : rawGetResult tr 0 = (tr 3, 3) :=
        (s1.trans s2).trans (retryLoop_ok tr 2 3 (tr 3) hok)
      exact countingGet_of_ok tr 0 (tr 3) 3 hraw hok
    · obtain ⟨e1, h1, c1⟩ := herr 1 (by omega) (by omega)
      obtain ⟨e2, h2, c2⟩ := herr 2 (by omega) (by omega)
      obtain ⟨e3, h3, c3⟩ := herr 3 (by omega) (by omega)
      have s1 : retryLoop tr 4 1 (tr 1) = retryLoop tr 3 2 (tr 2) :=
        retryLoop_step tr 3 1 (tr 1) e1 h1 c1
      have s2 : retryLoop tr 3 2 (tr 2) = retryLoop tr 2 3 (tr 3) :=
        retryLoop_step tr 2 2 (tr 2) e2 h2 c2
      have s3 : retryLoop tr 2 3 (tr 3) = retryLoop tr 1 4 (tr 4) :=
        retryLoop_step tr 1 3 (tr 3) e3 h3 c3
      have hraw : rawGetResult tr 0 = (tr 4, 4) :=
        ((s1.trans s2).trans s3).trans (retryLoop_ok tr 1 4 (tr 4) hok)
      exact countingGet_of_ok tr 0 (tr 4) 4 hraw hok
    · obtain ⟨e1, h1, c1⟩ := herr 1 (by omega) (by omega)
      obtain ⟨e2, h2, c2⟩ := herr 2 (by omega) (by omega)
      obtain ⟨e3, h3, c3⟩ := herr 3 (by omega) (by omega)
      obtain ⟨e4, h4, c4⟩ := herr 4 (by omega) (by omega)
      have s1 : retryLoop tr 4 1 (tr 1) = retryLoop tr 3 2 (tr 2) :=
        retryLoop_step tr 3 1 (tr 1) e1 h1 c1
      have s2 : retryLoop tr 3 2 (tr 2) = retryLoop tr 2 3 (tr 3) :=
        retryLoop_step tr 2 2 (tr 2) e2 h2 c2
      have s3 : retryLoop tr 2 3 (tr 3) = retryLoop tr 1 4 (tr 4) :=
        retryLoop_step tr 1 3 (tr 3) e3 h3 c3
      have s4 : retryLoop tr 1 4 (tr 4) = retryLoop tr 0 5 (tr 5) :=
        retryLoop_step tr 0 4 (tr 4) e4 h4 c4
      have hraw : rawGetResult tr 0 = (tr 5, 5) :=
        (((s1.trans s2).trans s3).trans s4).trans (retryLoop_ok tr 0 5 (tr 5) hok)
      exact countingGet_of_ok tr 0 (tr 5) 5 hraw hok

/-- A transport that fails twice with the transient sentinel, then succeeds
from its 3rd call on. -/
def failThenOkTransport : Transport := fun n =>
  if n < 3 then (none, some (GoffError.message "consumer_key_unknown"))
  else (some ⟨"<fantasy_content/>"⟩, none)

/-- Witness for C1's amended statement: the always-failing transport is
attempted 5 times; the succeed-on-3rd transport returns its success with the
counter at 3. -/
theorem retryBound_witness :
    countingGet alwaysFailingTransport 0 = (alwaysFailingTransport 5, 5) ∧
    countingGet failThenOkTransport 0 = (failThenOkTransport 3, 3) :=
  ⟨retryBound.1 alwaysFailingTransport (fun _ _ _ =>
      ⟨GoffError.message "consumer_key_unknown", rfl, by decide, by decide⟩),
   retryBound.2 failThenOkTransport 3 (by omega) (by omega)
     (fun n _ h2 =>
       ⟨GoffError.message "consumer_key_unknown",
        by simp [failThenOkTransport, h2], by decide⟩)
     (by decide)⟩

/-- C4: whenever the final result of the retried request carries an error
whose text contains the access-denied sentinel, `Get` returns the one
distinguished `ErrAccessDenied` value (keeping the response and counter),
and that value is distinct from every `errors.New`-style message error. -/
theorem accessDeniedNormalization :
    ∀ (tr : Transport) (rc0 : Nat) (e : GoffError) (s : String),
      ((rawGetResult tr rc0).1).2 = some e →
      goContains e.text accessDeniedSentinel = true →
      countingGet tr rc0 =
        ((((rawGetResult tr rc0).1).1, some GoffError.accessDenied),
          (rawGetResult tr rc0).2) ∧
      GoffError.accessDenied ≠ GoffError.message s := by
  intro tr rc0 e s h ha
  refine ⟨?_, by simp⟩
  exact countingGet_of_denied tr rc0 (rawGetResult tr rc0).1 (rawGetResult tr rc0).2 e
    rfl h ha

/-- A transport that always fails with a message containing the access-denied
sentinel (with extra surrounding wording). -/
def deniedTransport : Transport :=
  fun _ => (none, some (GoffError.message
    "Request denied: You are not allowed to view this page. (403)"))

/-- Witness for C4 at the concrete denying transport. -/
theorem accessDeniedNormalization_witness :
    countingGet deniedTransport 0 = ((none, some GoffError.accessDenied), 1) ∧
    GoffError.accessDenied ≠ GoffError.message "other error" := by
  obtain ⟨h1, h2⟩ := accessDeniedNormalization deniedTransport 0
    (GoffError.message "Request denied: You are not allowed to view this page. (403)")
    "other error" (by decide) (by decide)
  refine ⟨?_, h2⟩
  rw [h1]
  rfl
